import Mathlib

/-!
Shallow embedding of the rate-limiting service in `src/main.py`
(SecureAI Rate Limiting API).

Timestamps (Python `time.time()` floats) are modelled as rationals.
The global `request_store = defaultdict(deque)` (line 32) is modelled as a
total function from client keys to timestamp lists (oldest first); the
lazily created empty deque of the defaultdict is the default value `[]`.
The in-place `popleft` and `append` mutations of a deque become an explicit
`Function.update` of the store.
-/

/-- The policy parameters of lines 26-29 of `src/main.py`, gathered in a
structure so that theorems can quantify over them; `srcConfig` below holds
the concrete values of the source. -/
structure Config where
  MAX_REQUESTS_PER_MIN : Nat
  BURST_LIMIT : Nat
  WINDOW_SECONDS : ℚ
  BURST_WINDOW : ℚ

/-- Lines 26-29: `MAX_REQUESTS_PER_MIN = 44`, `BURST_LIMIT = 13`,
`WINDOW_SECONDS = 60`, `BURST_WINDOW = 5`. -/
def srcConfig : Config :=
  { MAX_REQUESTS_PER_MIN := 44
    BURST_LIMIT := 13
    WINDOW_SECONDS := 60
    BURST_WINDOW := 5 }

/-- Line 32: `request_store = defaultdict(deque)` — per-key timestamp log. -/
def Store : Type := String → List ℚ

/-- A fresh store: every key maps to the default empty deque. -/
def emptyStore : Store := fun _ => []

/-- Lines 54 and 57-59 of `check_rate_limit`:
`window_start = now - WINDOW_SECONDS` and then
`while timestamps and timestamps[0] < window_start: timestamps.popleft()`. -/
def prune (windowSeconds now : ℚ) (timestamps : List ℚ) : List ℚ :=
  timestamps.dropWhile (fun t => decide (t < now - windowSeconds))

/-- Lines 52-76: `check_rate_limit(key)`, with the value read from
`time.time()` at line 53 passed in as the argument `now` (the clock read
itself is modelled by `check_rate_limit_clocked` below).  Returns the pair
`(allowed, count)` returned by the Python function together with the store
after the call; the pruning mutates the stored deque in every branch, and
`timestamps.append(now)` (line 75) happens only on the allow path. -/
def check_rate_limit (cfg : Config) (key : String) (now : ℚ) (store : Store) :
    (Bool × Nat) × Store :=
  let timestamps := prune cfg.WINDOW_SECONDS now (store key)
  let request_count := timestamps.length
  if cfg.MAX_REQUESTS_PER_MIN ≤ request_count then
    ((false, request_count), Function.update store key timestamps)
  else if cfg.BURST_LIMIT ≤ request_count ∧
      now - timestamps.headD now ≤ cfg.BURST_WINDOW then
    ((false, request_count), Function.update store key timestamps)
  else
    ((true, request_count + 1), Function.update store key (timestamps ++ [now]))

/-- Line 53: `now = time.time()` — the `check_rate_limit` of the source takes
only `key` and reads the clock itself.  The ambient clock is modelled as an
oracle stream of successive `time.time()` readings carried beside the store;
a call consumes one reading. -/
def check_rate_limit_clocked (cfg : Config) (key : String) :
    Store × List ℚ → (Bool × Nat) × (Store × List ℚ)
  | (store, clock) =>
    let r := check_rate_limit cfg key (clock.headD 0) store
    (r.1, (r.2, clock.tail))

/-- Runs `check_rate_limit` once per timestamp in `times` (in order),
collecting the `(allowed, count)` decisions and threading the store. -/
def runDecisions (cfg : Config) (key : String) :
    List ℚ → Store → List (Bool × Nat) × Store
  | [], store => ([], store)
  | t :: ts, store =>
    let r := check_rate_limit cfg key t store
    let rest := runDecisions cfg key ts r.2
    (r.1 :: rest.1, rest.2)

/-- The timestamps `0, 1, ..., n-1` as rationals. -/
def rangeTimes (n : Nat) : List ℚ :=
  (List.range n).map (fun i => (i : ℚ))

/-- Lines 48-50: `get_client_key` builds the composite client key from the
user id and the peer address (`"unknown"` when absent). -/
def get_client_key (user_id : String) (client_host : Option String) : String :=
  user_id ++ ":" ++ client_host.getD "unknown"

/-- Lines 42-45: the request model `InputData`. -/
structure InputData where
  userId : String
  input : String
  category : String

/-- The observable part of a response of the `/secure-ai` endpoint:
HTTP status plus the JSON body fields produced at lines 94-99, 110-115,
117-126 and 128-138. -/
structure ApiResponse where
  status : Nat
  blocked : Bool
  reason : String
  sanitizedOutput : Option String
  confidence : ℚ

/-- The 400 body produced by the handler at lines 117-126 when the
`HTTPException` from line 84 is caught. -/
def validationErrorResponse : ApiResponse :=
  { status := 400
    blocked := true
    reason := "Validation error"
    sanitizedOutput := none
    confidence := 0.90 }

/-- Lines 79-126: the `/secure-ai` handler on an already parsed `InputData`.
Line 83 tests Python falsiness of the two required string fields (empty
string); the raised `HTTPException(400)` is caught at line 117, which builds
the validation body.  Otherwise the limiter runs and its decision is mapped to
the 200 body (lines 110-115) or the 429 body (lines 94-105). -/
def secure_ai (cfg : Config) (data : InputData) (client_host : Option String)
    (now : ℚ) (store : Store) : ApiResponse × Store :=
  if data.userId = "" ∨ data.input = "" then
    (validationErrorResponse, store)
  else
    let key := get_client_key data.userId client_host
    let r := check_rate_limit cfg key now store
    if r.1.1 then
      ({ status := 200
         blocked := false
         reason := "Input passed all security checks"
         sanitizedOutput := some data.input.trim
         confidence := 0.95 }, r.2)
    else
      ({ status := 429
         blocked := true
         reason := "Rate limit exceeded: max 44/min with burst 13"
         sanitizedOutput := none
         confidence := 0.99 }, r.2)

/-! ### Helper lemmas -/

lemma prune_length_le (c now : ℚ) (l : List ℚ) : (prune c now l).length ≤ l.length :=
  (List.dropWhile_sublist _).length_le

lemma prune_noop (c now : ℚ) (l : List ℚ) (h : ∀ x ∈ l, ¬ x < now - c) :
    prune c now l = l := by
  cases l with
  | nil => rfl
  | cons a tl =>
      have ha : decide (a < now - c) = false :=
        decide_eq_false (h a (List.mem_cons_self a tl))
      simp [prune, List.dropWhile_cons, ha]

lemma prune_nil_of_all_old (c now : ℚ) (l : List ℚ) (h : ∀ x ∈ l, x < now - c) :
    prune c now l = [] := by
  refine List.dropWhile_eq_nil_iff.mpr ?_
  intro x hx
  exact decide_eq_true (h x hx)

/-- When the pruned log is empty and both limits are positive, the call
admits with count 1 and records exactly the current timestamp. -/
lemma check_of_prune_nil (cfg : Config) (key : String) (now : ℚ) (store : Store)
    (hempty : prune cfg.WINDOW_SECONDS now (store key) = [])
    (hb : 1 ≤ cfg.BURST_LIMIT) (hm : 1 ≤ cfg.MAX_REQUESTS_PER_MIN) :
    check_rate_limit cfg key now store = ((true, 1), Function.update store key [now]) := by
  simp only [check_rate_limit, hempty, List.length_nil]
  rw [if_neg (by omega), if_neg (by rintro ⟨h1, -⟩; omega)]
  simp

/-- On a rejection (either branch) the returned count is the post-prune log
length and the stored log for `key` is exactly the pruned list. -/
lemma check_rejected_store (cfg : Config) (key : String) (now : ℚ) (store : Store)
    (h : (check_rate_limit cfg key now store).1.1 = false) :
    (check_rate_limit cfg key now store).1.2
        = (prune cfg.WINDOW_SECONDS now (store key)).length ∧
      (check_rate_limit cfg key now store).2 key
        = prune cfg.WINDOW_SECONDS now (store key) := by
  revert h
  simp only [check_rate_limit]
  split_ifs with h1 h2 <;> intro h
  · exact ⟨rfl, Function.update_same key _ store⟩
  · exact ⟨rfl, Function.update_same key _ store⟩
  · simp at h

/-- A run consisting only of rejected calls never grows the log of `key`. -/
lemma rejected_run_length_le (cfg : Config) (key : String) (B : Nat) :
    ∀ (ts : List ℚ) (store : Store), (store key).length ≤ B →
      (∀ d ∈ (runDecisions cfg key ts store).1, d.1 = false) →
      ((runDecisions cfg key ts store).2 key).length ≤ B := by
  intro ts
  induction ts with
  | nil => intro store hlen _; simpa [runDecisions] using hlen
  | cons t rest ih =>
      intro store hlen hall
      have hmem : ((check_rate_limit cfg key t store).1) ∈
          (runDecisions cfg key (t :: rest) store).1 := by
        simp [runDecisions]
      have hrej := hall _ hmem
      have hstep := (check_rejected_store cfg key t store hrej).2
      have hlen' : ((check_rate_limit cfg key t store).2 key).length ≤ B := by
        rw [hstep]
        exact le_trans (prune_length_le _ _ _) hlen
      have hall' : ∀ d ∈ (runDecisions cfg key rest
          (check_rate_limit cfg key t store).2).1, d.1 = false := by
        intro d hd
        exact hall d (by simp [runDecisions, hd])
      simpa [runDecisions] using
        ih (check_rate_limit cfg key t store).2 hlen' hall'

/-! ### C10 -/

/-- C10: for any key whose log is empty after pruning (in particular a never
before seen key, whose log is lazily created empty) and any `now`, the call
admits and returns count 1, provided both limits are at least 1; the burst
check never fires on an empty log. -/
theorem empty_log_always_admits (cfg : Config) (key : String) (now : ℚ) (store : Store)
    (hempty : prune cfg.WINDOW_SECONDS now (store key) = [])
    (hb : 1 ≤ cfg.BURST_LIMIT) (hm : 1 ≤ cfg.MAX_REQUESTS_PER_MIN) :
    check_rate_limit cfg key now store = ((true, 1), Function.update store key [now]) :=
  check_of_prune_nil cfg key now store hempty hb hm

theorem empty_log_always_admits_witness :
    (prune srcConfig.WINDOW_SECONDS 0 (emptyStore "k") = [] ∧
      1 ≤ srcConfig.BURST_LIMIT ∧ 1 ≤ srcConfig.MAX_REQUESTS_PER_MIN) ∧
    check_rate_limit srcConfig "k" 0 emptyStore
      = ((true, 1), Function.update emptyStore "k" [0]) :=
  ⟨⟨rfl, by decide, by decide⟩,
    empty_log_always_admits srcConfig "k" 0 emptyStore rfl (by decide) (by decide)⟩

/-! ### C4 -/

/-- C4: whenever the limiter rejects (by either check) it returns the
post-prune log length as the count, appends no timestamp (the stored log is
exactly the pruned previous log, so its length never grows), and a run of
rejected calls keeps a log of at most `BURST_LIMIT` entries once it is that
small. -/
theorem rejection_never_consumes_quota (cfg : Config) (key : String) (now : ℚ)
    (store : Store) (h : (check_rate_limit cfg key now store).1.1 = false) :
    (check_rate_limit cfg key now store).1.2
        = (prune cfg.WINDOW_SECONDS now (store key)).length ∧
      (check_rate_limit cfg key now store).2 key
        = prune cfg.WINDOW_SECONDS now (store key) ∧
      ((check_rate_limit cfg key now store).2 key).length ≤ (store key).length ∧
      ∀ (ts : List ℚ) (store₂ : Store),
        (store₂ key).length ≤ cfg.BURST_LIMIT →
        (∀ d ∈ (runDecisions cfg key ts store₂).1, d.1 = false) →
        ((runDecisions cfg key ts store₂).2 key).length ≤ cfg.BURST_LIMIT := by
  obtain ⟨h1, h2⟩ := check_rejected_store cfg key now store h
  refine ⟨h1, h2, ?_, ?_⟩
  · rw [h2]; exact prune_length_le _ _ _
  · intro ts store₂ hlen hall
    exact rejected_run_length_le cfg key cfg.BURST_LIMIT ts store₂ hlen hall

theorem rejection_never_consumes_quota_witness :
    ((check_rate_limit srcConfig "k" 1
        (Function.update emptyStore "k" (List.replicate 13 0))).1.1 = false) ∧
    ((check_rate_limit srcConfig "k" 1
          (Function.update emptyStore "k" (List.replicate 13 0))).1.2
        = (prune srcConfig.WINDOW_SECONDS 1
            ((Function.update emptyStore "k" (List.replicate 13 0)) "k")).length ∧
      (check_rate_limit srcConfig "k" 1
            (Function.update emptyStore "k" (List.replicate 13 0))).2 "k"
        = prune srcConfig.WINDOW_SECONDS 1
            ((Function.update emptyStore "k" (List.replicate 13 0)) "k") ∧
      ((check_rate_limit srcConfig "k" 1
            (Function.update emptyStore "k" (List.replicate 13 0))).2 "k").length
        ≤ ((Function.update emptyStore "k" (List.replicate 13 0)) "k").length ∧
      ∀ (ts : List ℚ) (store₂ : Store),
        (store₂ "k").length ≤ srcConfig.BURST_LIMIT →
        (∀ d ∈ (runDecisions srcConfig "k" ts store₂).1, d.1 = false) →
        ((runDecisions srcConfig "k" ts store₂).2 "k").length ≤ srcConfig.BURST_LIMIT) :=
  ⟨of_decide_eq_true (by with_unfolding_all rfl),
    rejection_never_consumes_quota srcConfig "k" 1
      (Function.update emptyStore "k" (List.replicate 13 0))
      (of_decide_eq_true (by with_unfolding_all rfl))⟩

/-! ### C3 -/

/-- C3 (counterexample): starting from an empty log, the call at time 0 and
then fourteen calls at time 30 are all admitted — recorded dense cluster of
14 timestamps inside the single five-second interval from 30 to 35, one more
than `BURST_LIMIT = 13`.  The burst check compares `now` with the oldest
retained timestamp (here 0, thirty seconds old), so it never fires even
though the cluster is dense. -/
theorem burst_cluster_exceeds_limit_counterexample :
    ((runDecisions srcConfig "k" ((0 : ℚ) :: List.replicate 14 30) emptyStore).1.map Prod.fst
        = List.replicate 15 true) ∧
      (((runDecisions srcConfig "k" ((0 : ℚ) :: List.replicate 14 30) emptyStore).2 "k").filter
          (fun t => decide (30 ≤ t ∧ t ≤ 30 + srcConfig.BURST_WINDOW))).length = 14 ∧
      srcConfig.BURST_LIMIT < 14 :=
  of_decide_eq_true (by with_unfolding_all rfl)

/-- C3 (amended): when the sustained check does not fire, the call is
rejected exactly when the post-prune count is at least `BURST_LIMIT` and the
oldest retained timestamp of the whole window is within `BURST_WINDOW` of
`now`.  The burst rule tests only the span of the entire retained log, so it
bounds a dense cluster only when the whole log is that cluster. -/
theorem burst_check_exact_condition (cfg : Config) (key : String) (now : ℚ)
    (store : Store)
    (h : (prune cfg.WINDOW_SECONDS now (store key)).length < cfg.MAX_REQUESTS_PER_MIN) :
    (check_rate_limit cfg key now store).1.1 = false ↔
      (cfg.BURST_LIMIT ≤ (prune cfg.WINDOW_SECONDS now (store key)).length ∧
        now - (prune cfg.WINDOW_SECONDS now (store key)).headD now ≤ cfg.BURST_WINDOW) := by
  simp only [check_rate_limit]
  rw [if_neg (not_le.mpr h)]
  split_ifs with hb
  · simpa using hb
  · simpa using hb

theorem burst_check_exact_condition_witness :
    ((prune srcConfig.WINDOW_SECONDS 1
          ((Function.update emptyStore "k" (List.replicate 13 0)) "k")).length
        < srcConfig.MAX_REQUESTS_PER_MIN) ∧
    ((check_rate_limit srcConfig "k" 1
          (Function.update emptyStore "k" (List.replicate 13 0))).1.1 = false ↔
      (srcConfig.BURST_LIMIT ≤ (prune srcConfig.WINDOW_SECONDS 1
            ((Function.update emptyStore "k" (List.replicate 13 0)) "k")).length ∧
        1 - (prune srcConfig.WINDOW_SECONDS 1
            ((Function.update emptyStore "k" (List.replicate 13 0)) "k")).headD 1
          ≤ srcConfig.BURST_WINDOW)) :=
  ⟨of_decide_eq_true (by with_unfolding_all rfl),
    burst_check_exact_condition srcConfig "k" 1
      (Function.update emptyStore "k" (List.replicate 13 0))
      (of_decide_eq_true (by with_unfolding_all rfl))⟩

/-! ### C7 -/

/-- C7: a call for `key` leaves the log of every other key unchanged, and the
decision together with the successor log of `key` depend only on the log of
`key` — so saturating one key never changes what another key observes. -/
theorem other_keys_never_touched (cfg : Config) (key : String) (now : ℚ)
    (store store₂ : Store) (k : String) (hne : k ≠ key)
    (hagree : store key = store₂ key) :
    (check_rate_limit cfg key now store).2 k = store k ∧
      (check_rate_limit cfg key now store).1 = (check_rate_limit cfg key now store₂).1 ∧
      (check_rate_limit cfg key now store).2 key
        = (check_rate_limit cfg key now store₂).2 key := by
  refine ⟨?_, ?_⟩
  · simp only [check_rate_limit]
    split_ifs <;> exact Function.update_noteq hne _ _
  · simp only [check_rate_limit, hagree]
    split_ifs
    · exact ⟨rfl, by simp⟩
    · exact ⟨rfl, by simp⟩
    · exact ⟨rfl, by simp⟩

theorem other_keys_never_touched_witness :
    (("b" : String) ≠ "a" ∧
      (Function.update emptyStore "b" [(7 : ℚ)]) "a" = emptyStore "a") ∧
    ((check_rate_limit srcConfig "a" 0 (Function.update emptyStore "b" [(7 : ℚ)])).2 "b"
        = (Function.update emptyStore "b" [(7 : ℚ)]) "b" ∧
      (check_rate_limit srcConfig "a" 0 (Function.update emptyStore "b" [(7 : ℚ)])).1
        = (check_rate_limit srcConfig "a" 0 emptyStore).1 ∧
      (check_rate_limit srcConfig "a" 0 (Function.update emptyStore "b" [(7 : ℚ)])).2 "a"
        = (check_rate_limit srcConfig "a" 0 emptyStore).2 "a") :=
  ⟨⟨of_decide_eq_true (by with_unfolding_all rfl),
      of_decide_eq_true (by with_unfolding_all rfl)⟩,
    other_keys_never_touched srcConfig "a" 0
      (Function.update emptyStore "b" [(7 : ℚ)]) emptyStore "b"
      (of_decide_eq_true (by with_unfolding_all rfl))
      (of_decide_eq_true (by with_unfolding_all rfl))⟩

/-! ### C8 -/

/-- C8 (counterexample): two invocations with identical caller-visible
inputs (same key, same limiter state) but different ambient clocks return
the same decision here, yet leave different successor limiter states — the
function reads `time.time()` itself (line 53), so `now` is not a
caller-supplied input of `check_rate_limit`. -/
theorem limiter_reads_ambient_clock_counterexample :
    (check_rate_limit_clocked srcConfig "k" (emptyStore, [0])).1
        = (check_rate_limit_clocked srcConfig "k" (emptyStore, [100])).1 ∧
      (check_rate_limit_clocked srcConfig "k" (emptyStore, [0])).2.1 "k"
        ≠ (check_rate_limit_clocked srcConfig "k" (emptyStore, [100])).2.1 "k" :=
  of_decide_eq_true (by with_unfolding_all rfl)

/-- C8 (amended): the clock value read at line 53 is the only time input of
the limiter: two invocations from equal limiter states with equal key and
equal current clock reading produce equal decisions and equal successor
stores, whatever the rest of the clock stream holds. -/
theorem limiter_deterministic_in_clock_reading (cfg : Config) (key : String)
    (store : Store) (c₁ c₂ : List ℚ) (h : c₁.headD 0 = c₂.headD 0) :
    (check_rate_limit_clocked cfg key (store, c₁)).1
        = (check_rate_limit_clocked cfg key (store, c₂)).1 ∧
      (check_rate_limit_clocked cfg key (store, c₁)).2.1
        = (check_rate_limit_clocked cfg key (store, c₂)).2.1 := by
  simp only [check_rate_limit_clocked]
  rw [h]
  exact ⟨rfl, rfl⟩

theorem limiter_deterministic_in_clock_reading_witness :
    (([(5 : ℚ), 7] : List ℚ).headD 0 = ([(5 : ℚ), 8] : List ℚ).headD 0) ∧
    ((check_rate_limit_clocked srcConfig "k" (emptyStore, [(5 : ℚ), 7])).1
        = (check_rate_limit_clocked srcConfig "k" (emptyStore, [(5 : ℚ), 8])).1 ∧
      (check_rate_limit_clocked srcConfig "k" (emptyStore, [(5 : ℚ), 7])).2.1
        = (check_rate_limit_clocked srcConfig "k" (emptyStore, [(5 : ℚ), 8])).2.1) :=
  ⟨rfl, limiter_deterministic_in_clock_reading srcConfig "k" emptyStore
    [(5 : ℚ), 7] [(5 : ℚ), 8] rfl⟩

/-! ### C9 -/

/-- C9: a request whose required fields are missing (empty, hence falsy at
line 83) is answered with status 400 and the validation body, for every
limiter state, and the state is returned unchanged — the limiter is neither
consulted nor modified. -/
theorem validation_error_bypasses_limiter (cfg : Config) (data : InputData)
    (client_host : Option String) (now : ℚ) (store : Store)
    (h : data.userId = "" ∨ data.input = "") :
    secure_ai cfg data client_host now store = (validationErrorResponse, store) := by
  unfold secure_ai
  rw [if_pos h]

theorem validation_error_bypasses_limiter_witness :
    (("" : String) = "" ∨ ("hello" : String) = "") ∧
    secure_ai srcConfig { userId := "", input := "hello", category := "general" }
        (some "1.2.3.4") 0 emptyStore = (validationErrorResponse, emptyStore) :=
  ⟨Or.inl rfl,
    validation_error_bypasses_limiter srcConfig
      { userId := "", input := "hello", category := "general" }
      (some "1.2.3.4") 0 emptyStore (Or.inl rfl)⟩

/-! ### C5 -/

lemma sorted_dropWhile_eq_filter (c : ℚ) (l : List ℚ) (h : l.Sorted (· ≤ ·)) :
    l.dropWhile (fun t => decide (t < c)) = l.filter (fun t => decide (¬ t < c)) := by
  induction l with
  | nil => rfl
  | cons a tl ih =>
      rcases List.sorted_cons.mp h with ⟨ha, htl⟩
      by_cases hc : a < c
      · simp only [List.dropWhile_cons, List.filter_cons]
        simp [hc, ih htl]
      · have htlall : ∀ x ∈ tl, ¬ x < c := fun x hx hlt =>
          hc (lt_of_le_of_lt (ha x hx) hlt)
        simp only [List.dropWhile_cons, List.filter_cons]
        simp only [decide_eq_true_eq, hc, if_false, decide_not]
        rw [if_pos (by simp [hc])]
        have : tl.filter (fun t => !decide (t < c)) = tl :=
          List.filter_eq_self.mpr (fun x hx => by simpa using htlall x hx)
        rw [this]

/-- C5: on a log whose timestamps are in non-decreasing order (the invariant
of the data model), the prefix prune removes exactly the stale timestamps:
the post-prune log is the sublist of entries with `now - t ≤ WINDOW_SECONDS`
in their original order; and once every retained timestamp is more than
`WINDOW_SECONDS` old, the next call is admitted with count 1. -/
theorem prune_exact_window_and_reset (now : ℚ) (store : Store) (key : String)
    (hsorted : (store key).Sorted (· ≤ ·)) :
    prune srcConfig.WINDOW_SECONDS now (store key)
        = (store key).filter (fun t => decide (now - t ≤ srcConfig.WINDOW_SECONDS)) ∧
      ((∀ t ∈ store key, srcConfig.WINDOW_SECONDS < now - t) →
        check_rate_limit srcConfig key now store
          = ((true, 1), Function.update store key [now])) := by
  constructor
  · rw [prune, sorted_dropWhile_eq_filter (now - srcConfig.WINDOW_SECONDS) _ hsorted]
    refine List.filter_congr ?_
    intro x _
    have : (¬ x < now - srcConfig.WINDOW_SECONDS) ↔
        (now - x ≤ srcConfig.WINDOW_SECONDS) := by
      constructor <;> intro h <;> [linarith [not_lt.mp h]; exact not_lt.mpr (by linarith)]
    exact decide_eq_decide.mpr this
  · intro hold
    refine check_of_prune_nil srcConfig key now store ?_ (by decide) (by decide)
    exact prune_nil_of_all_old _ _ _ (fun x hx => by linarith [hold x hx])

theorem prune_exact_window_and_reset_witness :
    ((Function.update emptyStore "k" [(0 : ℚ), 10]) "k").Sorted (· ≤ ·) ∧
    (prune srcConfig.WINDOW_SECONDS 100 ((Function.update emptyStore "k" [(0 : ℚ), 10]) "k")
        = ((Function.update emptyStore "k" [(0 : ℚ), 10]) "k").filter
            (fun t => decide (100 - t ≤ srcConfig.WINDOW_SECONDS)) ∧
      ((∀ t ∈ (Function.update emptyStore "k" [(0 : ℚ), 10]) "k",
          srcConfig.WINDOW_SECONDS < 100 - t) →
        check_rate_limit srcConfig "k" 100 (Function.update emptyStore "k" [(0 : ℚ), 10])
          = ((true, 1), Function.update (Function.update emptyStore "k" [(0 : ℚ), 10]) "k" [100]))) :=
  ⟨of_decide_eq_true (by with_unfolding_all rfl),
    prune_exact_window_and_reset 100 (Function.update emptyStore "k" [(0 : ℚ), 10]) "k"
      (of_decide_eq_true (by with_unfolding_all rfl))⟩

/-! ### C1 -/

/-- The decision sequence and the log of the called key depend on the store
only through that log; the key name itself is immaterial. -/
lemma check_key_agnostic (cfg : Config) (key₁ key₂ : String) (now : ℚ)
    (store₁ store₂ : Store) (h : store₁ key₁ = store₂ key₂) :
    (check_rate_limit cfg key₁ now store₁).1 = (check_rate_limit cfg key₂ now store₂).1 ∧
      (check_rate_limit cfg key₁ now store₁).2 key₁
        = (check_rate_limit cfg key₂ now store₂).2 key₂ := by
  simp only [check_rate_limit, h]
  split_ifs
  · exact ⟨rfl, by simp⟩
  · exact ⟨rfl, by simp⟩
  · exact ⟨rfl, by simp⟩

lemma run_key_agnostic (cfg : Config) (key₁ key₂ : String) :
    ∀ (ts : List ℚ) (store₁ store₂ : Store), store₁ key₁ = store₂ key₂ →
      (runDecisions cfg key₁ ts store₁).1 = (runDecisions cfg key₂ ts store₂).1 ∧
        (runDecisions cfg key₁ ts store₁).2 key₁
          = (runDecisions cfg key₂ ts store₂).2 key₂ := by
  intro ts
  induction ts with
  | nil => intro s₁ s₂ h; exact ⟨rfl, h⟩
  | cons t rest ih =>
      intro s₁ s₂ h
      obtain ⟨hd, hs⟩ := check_key_agnostic cfg key₁ key₂ t s₁ s₂ h
      obtain ⟨ihd, ihs⟩ :=
        ih (check_rate_limit cfg key₁ t s₁).2 (check_rate_limit cfg key₂ t s₂).2 hs
      exact ⟨by simp only [runDecisions, hd, ihd], by simp only [runDecisions, ihs]⟩

/-- One call never grows the log of the called key beyond
`MAX_REQUESTS_PER_MIN` entries. -/
lemma check_length_invariant (cfg : Config) (key : String) (now : ℚ) (store : Store)
    (hlen : (store key).length ≤ cfg.MAX_REQUESTS_PER_MIN) :
    ((check_rate_limit cfg key now store).2 key).length ≤ cfg.MAX_REQUESTS_PER_MIN := by
  have hp : (prune cfg.WINDOW_SECONDS now (store key)).length ≤ (store key).length :=
    prune_length_le _ _ _
  simp only [check_rate_limit]
  split_ifs with h1 h2
  · show (Function.update store key (prune cfg.WINDOW_SECONDS now (store key)) key).length
        ≤ cfg.MAX_REQUESTS_PER_MIN
    rw [Function.update_same]
    omega
  · show (Function.update store key (prune cfg.WINDOW_SECONDS now (store key)) key).length
        ≤ cfg.MAX_REQUESTS_PER_MIN
    rw [Function.update_same]
    omega
  · show (Function.update store key
        (prune cfg.WINDOW_SECONDS now (store key) ++ [now]) key).length
        ≤ cfg.MAX_REQUESTS_PER_MIN
    rw [Function.update_same, List.length_append]
    simp only [List.length_singleton]
    omega

lemma run_length_invariant (cfg : Config) (key : String) :
    ∀ (ts : List ℚ) (store : Store),
      (store key).length ≤ cfg.MAX_REQUESTS_PER_MIN →
      ((runDecisions cfg key ts store).2 key).length ≤ cfg.MAX_REQUESTS_PER_MIN := by
  intro ts
  induction ts with
  | nil => intro store h; simpa [runDecisions] using h
  | cons t rest ih =>
      intro store h
      simpa [runDecisions] using
        ih (check_rate_limit cfg key t store).2 (check_length_invariant cfg key t store h)

/-- C1: for every key, requests at the integer seconds 0..44 (all inside one
sixty second window, spaced so the burst rule never fires) give 44 admits
with counts 1..44 followed by a rejection with count 44, leaving exactly 44
retained entries; and in every execution a log that holds at most
`MAX_REQUESTS_PER_MIN` entries can never come to hold more, so 44 admitted
requests per window is the maximum. -/
theorem sustained_limit_exactly_max_admits :
    (∀ key : String,
      (runDecisions srcConfig key (rangeTimes 45) emptyStore).1
          = (List.range 44).map (fun i => (true, i + 1)) ++ [(false, 44)] ∧
        ((runDecisions srcConfig key (rangeTimes 45) emptyStore).2 key).length = 44) ∧
      (∀ x ∈ rangeTimes 45, (0 : ℚ) ≤ x ∧ x ≤ 60) ∧
      ∀ (cfg : Config) (key : String) (ts : List ℚ) (store : Store),
        (store key).length ≤ cfg.MAX_REQUESTS_PER_MIN →
        ((runDecisions cfg key ts store).2 key).length ≤ cfg.MAX_REQUESTS_PER_MIN := by
  refine ⟨?_, of_decide_eq_true (by with_unfolding_all rfl), ?_⟩
  · intro key
    obtain ⟨hd, hs⟩ := run_key_agnostic srcConfig key "k" (rangeTimes 45)
      emptyStore emptyStore rfl
    rw [hd, hs]
    exact ⟨of_decide_eq_true (by with_unfolding_all rfl),
      of_decide_eq_true (by with_unfolding_all rfl)⟩
  · intro cfg key ts store h
    exact run_length_invariant cfg key ts store h

theorem sustained_limit_exactly_max_admits_witness :
    ((emptyStore "k").length ≤ srcConfig.MAX_REQUESTS_PER_MIN) ∧
    ((runDecisions srcConfig "k" [(0 : ℚ), 1, 2] emptyStore).2 "k").length
      ≤ srcConfig.MAX_REQUESTS_PER_MIN :=
  ⟨of_decide_eq_true (by with_unfolding_all rfl),
    sustained_limit_exactly_max_admits.2.2 srcConfig "k" [(0 : ℚ), 1, 2] emptyStore
      (of_decide_eq_true (by with_unfolding_all rfl))⟩

/-! ### C2 -/

/-- Running a batch of requests that all fall inside one five second span,
onto a log already inside that span, admits every request while the total
stays at or below `BURST_LIMIT`: the counts go up one by one and the log
collects every timestamp. -/
lemma dense_run (key : String) (a : ℚ) :
    ∀ (l p : List ℚ) (store : Store),
      store key = p →
      (∀ x ∈ p, a ≤ x ∧ x ≤ a + 5) →
      (∀ x ∈ l, a ≤ x ∧ x ≤ a + 5) →
      p.length + l.length ≤ 13 →
      (runDecisions srcConfig key l store).1
          = (List.range l.length).map (fun i => (true, p.length + i + 1)) ∧
        (runDecisions srcConfig key l store).2 = Function.update store key (p ++ l) := by
  intro l
  induction l with
  | nil =>
      intro p store hstore hp hl hcount
      refine ⟨rfl, ?_⟩
      simp only [runDecisions, List.append_nil]
      rw [← hstore]
      exact (Function.update_eq_self key store).symm
  | cons t₀ rest ih =>
      intro p store hstore hp hl hcount
      simp only [List.length_cons] at hcount
      have hW : srcConfig.WINDOW_SECONDS = 60 := rfl
      have hM : srcConfig.MAX_REQUESTS_PER_MIN = 44 := rfl
      have hB : srcConfig.BURST_LIMIT = 13 := rfl
      have ht₀ : a ≤ t₀ ∧ t₀ ≤ a + 5 := hl t₀ (List.mem_cons_self t₀ rest)
      have hnoop : prune srcConfig.WINDOW_SECONDS t₀ (store key) = p := by
        rw [hstore]
        refine prune_noop _ _ p ?_
        intro x hx
        have hax := (hp x hx).1
        rw [hW]
        linarith [ht₀.2]
      have hstep : check_rate_limit srcConfig key t₀ store
          = ((true, p.length + 1), Function.update store key (p ++ [t₀])) := by
        simp only [check_rate_limit, hnoop]
        rw [if_neg (by rw [hM]; omega), if_neg (by rw [hB]; rintro ⟨h1, -⟩; omega)]
      have hrest := ih (p ++ [t₀]) (Function.update store key (p ++ [t₀]))
        (Function.update_same key _ store)
        (by
          intro x hx
          rcases List.mem_append.mp hx with hx | hx
          · exact hp x hx
          · rw [List.mem_singleton.mp hx]; exact ht₀)
        (fun x hx => hl x (List.mem_cons_of_mem t₀ hx))
        (by simp only [List.length_append, List.length_singleton]; omega)
      refine ⟨?_, ?_⟩
      · simp only [runDecisions, hstep, hrest.1, List.length_cons]
        rw [List.range_succ_eq_map, List.map_cons, List.map_map]
        refine congrArg₂ List.cons ?_ ?_
        · simp
        · refine List.map_congr_left ?_
          intro x _
          simp only [Function.comp_apply, List.length_append, List.length_singleton,
            Prod.mk.injEq, true_and, Nat.succ_eq_add_one]
          omega
      · simp only [runDecisions, hstep, hrest.2]
        rw [List.append_assoc, List.singleton_append]
        exact Function.update_idem _ _ _

/-- C2: starting from an empty log, thirteen requests whose timestamps all
lie in one five second span are all admitted with counts 1..13, and a
fourteenth request inside the same span is rejected by the burst check with
count 13 and no appended timestamp — even though 13 is far below the
sustained limit of 44. -/
theorem burst_limit_first_window (key : String) (a t : ℚ) (l : List ℚ)
    (hlen : l.length = 13)
    (hl : ∀ x ∈ l, a ≤ x ∧ x ≤ a + 5)
    (_hta : a ≤ t) (htb : t ≤ a + 5) :
    (runDecisions srcConfig key l emptyStore).1
        = (List.range 13).map (fun i => (true, i + 1)) ∧
      (runDecisions srcConfig key l emptyStore).2 key = l ∧
      check_rate_limit srcConfig key t ((runDecisions srcConfig key l emptyStore).2)
        = ((false, 13),
            Function.update (runDecisions srcConfig key l emptyStore).2 key l) := by
  have hW : srcConfig.WINDOW_SECONDS = 60 := rfl
  have hM : srcConfig.MAX_REQUESTS_PER_MIN = 44 := rfl
  have hB : srcConfig.BURST_LIMIT = 13 := rfl
  have hBW : srcConfig.BURST_WINDOW = 5 := rfl
  obtain ⟨hdec, hsto⟩ := dense_run key a l [] emptyStore rfl (by simp) hl (by simp [hlen])
  have hkey : (runDecisions srcConfig key l emptyStore).2 key = l := by
    rw [hsto, List.nil_append]
    exact Function.update_same key _ emptyStore
  have hne : l ≠ [] := by
    intro h
    rw [h] at hlen
    simp at hlen
  obtain ⟨h₀, tl, rfl⟩ : ∃ h₀ tl, l = h₀ :: tl := by
    cases l with
    | nil => exact absurd rfl hne
    | cons x xs => exact ⟨x, xs, rfl⟩
  have hh₀ := hl h₀ (List.mem_cons_self h₀ tl)
  refine ⟨?_, hkey, ?_⟩
  · rw [hdec, hlen]
    refine List.map_congr_left ?_
    intro x _
    simp
  · have hnoop : prune srcConfig.WINDOW_SECONDS t
        ((runDecisions srcConfig key (h₀ :: tl) emptyStore).2 key) = h₀ :: tl := by
      rw [hkey]
      refine prune_noop _ _ _ ?_
      intro x hx
      have hax := (hl x hx).1
      rw [hW]
      linarith
    simp only [check_rate_limit, hnoop, hlen]
    rw [if_neg (by rw [hM]; omega),
      if_pos ⟨by rw [hB], by simp only [List.headD_cons, hBW]; linarith [hh₀.1]⟩]

theorem burst_limit_first_window_witness :
    ((List.replicate 13 (0 : ℚ)).length = 13 ∧
      (∀ x ∈ List.replicate 13 (0 : ℚ), (0 : ℚ) ≤ x ∧ x ≤ 0 + 5) ∧
      (0 : ℚ) ≤ 1 ∧ (1 : ℚ) ≤ 0 + 5) ∧
    ((runDecisions srcConfig "k" (List.replicate 13 (0 : ℚ)) emptyStore).1
        = (List.range 13).map (fun i => (true, i + 1)) ∧
      (runDecisions srcConfig "k" (List.replicate 13 (0 : ℚ)) emptyStore).2 "k"
        = List.replicate 13 (0 : ℚ) ∧
      check_rate_limit srcConfig "k" 1
          ((runDecisions srcConfig "k" (List.replicate 13 (0 : ℚ)) emptyStore).2)
        = ((false, 13),
            Function.update (runDecisions srcConfig "k" (List.replicate 13 (0 : ℚ)) emptyStore).2
              "k" (List.replicate 13 (0 : ℚ)))) :=
  ⟨⟨of_decide_eq_true (by with_unfolding_all rfl),
      of_decide_eq_true (by with_unfolding_all rfl),
      of_decide_eq_true (by with_unfolding_all rfl),
      of_decide_eq_true (by with_unfolding_all rfl)⟩,
    burst_limit_first_window "k" 0 1 (List.replicate 13 (0 : ℚ))
      (of_decide_eq_true (by with_unfolding_all rfl))
      (of_decide_eq_true (by with_unfolding_all rfl))
      (of_decide_eq_true (by with_unfolding_all rfl))
      (of_decide_eq_true (by with_unfolding_all rfl))⟩
